import Mathlib

/-!
Verification development for the ride-sharing analytics dashboard
(`src/dashboard/ridesharing_dashboard.py`).

The pandas/streamlit pipeline is shallowly embedded: dataframes become
lists of records, column selections become field projections, groupby
becomes grouping over sorted deduplicated keys (pandas `groupby` sorts its
keys by default), and float amounts become exact rationals.  A value that
pandas would render as `NaN`/missing is `Option.none`; a Python exception
is `Except.error`.
-/

/-- Calendar timestamp as stored after `pd.to_datetime`.  `date` counts days
from an epoch chosen to fall on a Monday, so the library functions
`dt.day_name`, `dt.month_name`, `dt.to_period` are modelled as pure
functions of this structure (`dt.hour` is carried directly). -/
structure DateTime where
  date : Nat
  hour : Nat
deriving DecidableEq

/-- The seven weekday names produced by pandas `dt.day_name()`. -/
def dayNames : List String :=
  ["Monday", "Tuesday", "Wednesday", "Thursday", "Friday", "Saturday", "Sunday"]

/-- Model of `dt.day_name()`: day-of-week of a timestamp (epoch is a Monday). -/
def dayName (d : DateTime) : String := dayNames.getD (d.date % 7) ""

/-- Month names produced by pandas `dt.month_name()`. -/
def monthNames : List String :=
  ["January", "February", "March", "April", "May", "June", "July",
   "August", "September", "October", "November", "December"]

/-- Model of the month index used by `dt.month_name()` and
`dt.to_period(M)`: the calendar bucket a date falls in.  The exact
calendar boundaries are library behaviour; a fixed-width bucket keeps the
model executable and no claim depends on month boundaries. -/
def monthIndex (d : DateTime) : Nat := d.date / 30

/-- Model of `dt.month_name()`. -/
def monthName (d : DateTime) : String := monthNames.getD (monthIndex d % 12) ""

/-- A row of `drivers.csv` (no parsed timestamp fields). -/
structure Driver where
  driver_id : Nat
  vehicle_type : String
  status : String
  driver_rating : Option ℚ
  total_trips_completed : Nat
deriving DecidableEq

/-- A raw row of `trips.csv` before preprocessing.  `trip_datetime` is the
text timestamp column: `none` models a string `pd.to_datetime` cannot
parse (which raises and aborts the load). -/
structure RawTrip where
  trip_id : Nat
  driver_id : Nat
  pickup_borough : Option String
  dropoff_borough : Option String
  trip_datetime : Option DateTime
  trip_status : String
  fare_amount : ℚ
  distance_miles : ℚ
  duration_minutes : ℚ
  surge_multiplier : ℚ
  rider_rating : Option ℚ
deriving DecidableEq

/-- A trip row after `load_data` preprocessing (lines 57-60): parsed
timestamp plus the derived `hour`, `day_of_week` and `month` columns.
`month_year` is the column the financial tab later assigns in place
(line 388); it is absent (`none`) when the frame leaves the loader. -/
structure Trip where
  trip_id : Nat
  driver_id : Nat
  pickup_borough : Option String
  dropoff_borough : Option String
  trip_datetime : DateTime
  hour : Nat
  day_of_week : String
  month : String
  trip_status : String
  fare_amount : ℚ
  distance_miles : ℚ
  duration_minutes : ℚ
  surge_multiplier : ℚ
  rider_rating : Option ℚ
  month_year : Option Nat
deriving DecidableEq

/-- A raw row of `payments.csv`; `payment_timestamp` is `none` when the
text cannot be parsed by `pd.to_datetime`. -/
structure RawPayment where
  payment_id : Nat
  trip_id : Nat
  payment_timestamp : Option DateTime
  payment_method : String
  payment_status : String
  amount_charged : ℚ
deriving DecidableEq

/-- A payment row after `load_data` (timestamp parsed). -/
structure Payment where
  payment_id : Nat
  trip_id : Nat
  payment_timestamp : DateTime
  payment_method : String
  payment_status : String
  amount_charged : ℚ
deriving DecidableEq

/-- Build a preprocessed trip from its parsed timestamp, deriving the
calendar columns exactly as lines 57-60 do. -/
def mkTrip (id did : Nat) (pb db : Option String) (d : DateTime)
    (status : String) (fare dist dur surge : ℚ) (rr : Option ℚ) : Trip :=
  { trip_id := id, driver_id := did, pickup_borough := pb, dropoff_borough := db,
    trip_datetime := d, hour := d.hour, day_of_week := dayName d,
    month := monthName d, trip_status := status, fare_amount := fare,
    distance_miles := dist, duration_minutes := dur, surge_multiplier := surge,
    rider_rating := rr, month_year := none }

/-- Preprocess one raw trip row: fails (like `pd.to_datetime`) when the
timestamp column is unparseable. -/
def parseTrip (r : RawTrip) : Option Trip :=
  r.trip_datetime.map fun d =>
    mkTrip r.trip_id r.driver_id r.pickup_borough r.dropoff_borough d
      r.trip_status r.fare_amount r.distance_miles r.duration_minutes
      r.surge_multiplier r.rider_rating

/-- Preprocess one raw payment row (parse `payment_timestamp`, line 61). -/
def parsePayment (r : RawPayment) : Option Payment :=
  r.payment_timestamp.map fun d =>
    { payment_id := r.payment_id, trip_id := r.trip_id, payment_timestamp := d,
      payment_method := r.payment_method, payment_status := r.payment_status,
      amount_charged := r.amount_charged }

/-- Preprocess the whole trips frame: `pd.to_datetime` on the column
raises (fails) as soon as any row is unparseable. -/
def parseAllTrips : List RawTrip → Option (List Trip)
  | [] => some []
  | r :: rs =>
    match parseTrip r, parseAllTrips rs with
    | some t, some ts => some (t :: ts)
    | _, _ => none

/-- Preprocess the whole payments frame. -/
def parseAllPayments : List RawPayment → Option (List Payment)
  | [] => some []
  | r :: rs =>
    match parsePayment r, parseAllPayments rs with
    | some p, some ps => some (p :: ps)
    | _, _ => none

/-- The external data source: each component is `none` when the
corresponding CSV file is missing (`FileNotFoundError` in `read_csv`). -/
structure Source where
  drivers_csv : Option (List Driver)
  trips_csv : Option (List RawTrip)
  payments_csv : Option (List RawPayment)

/-- `load_data` (lines 49-69): read the three CSVs, parse timestamps and
derive trip calendar columns; any exception (missing file, unparseable
field) is caught and the function returns `None, None, None`. -/
def load_data (src : Source) : Option (List Driver) × Option (List Trip) × Option (List Payment) :=
  match (do
    let drivers ← src.drivers_csv
    let rawTrips ← src.trips_csv
    let rawPayments ← src.payments_csv
    let trips ← parseAllTrips rawTrips
    let payments ← parseAllPayments rawPayments
    pure (drivers, trips, payments) : Option _) with
  | none => (none, none, none)
  | some (d, t, p) => (some d, some t, some p)

/-- Operator inputs from the sidebar (lines 83-106): borough multiselects,
vehicle-type multiselect, inclusive date range. -/
structure Selection where
  pickupBoroughs : List String
  dropoffBoroughs : List String
  vehicleTypes : List String
  startDate : Nat
  endDate : Nat

/-- `Series.isin` on a nullable column: a missing value is never a member. -/
def optIsin (v : Option String) (allowed : List String) : Bool :=
  match v with
  | none => false
  | some s => decide (s ∈ allowed)

/-- The row predicate of the borough/date filter (lines 109-114). -/
def tripPred (sel : Selection) (t : Trip) : Bool :=
  optIsin t.pickup_borough sel.pickupBoroughs &&
  optIsin t.dropoff_borough sel.dropoffBoroughs &&
  decide (sel.startDate ≤ t.trip_datetime.date) &&
  decide (t.trip_datetime.date ≤ sel.endDate)

/-- `filtered_trips` (lines 109-114): boolean-mask filter of the trips
frame by pickup borough, dropoff borough and inclusive date range. -/
def filtered_trips (trips : List Trip) (sel : Selection) : List Trip :=
  trips.filter (tripPred sel)

/-- The left merge of lines 117-121: attach each trip's driver
`vehicle_type` by `driver_id`; an unresolved driver reference leaves a
missing (`none`) vehicle type.  Driver ids are unique in the data model,
so the left join attaches at most one driver row, modelled by `find?`. -/
def merge_vehicle (trips : List Trip) (drivers : List Driver) : List (Trip × Option String) :=
  trips.map fun t =>
    (t, (drivers.find? fun d => decide (d.driver_id = t.driver_id)).map Driver.vehicle_type)

/-- `filtered_trips_with_drivers` (lines 117-126): left-join trips to
drivers, then keep rows whose vehicle type is in the selection (`isin` on
the merged column; a missing vehicle type never matches). -/
def filtered_trips_with_drivers (trips : List Trip) (drivers : List Driver)
    (sel : Selection) : List (Trip × Option String) :=
  (merge_vehicle (filtered_trips trips sel) drivers).filter fun tv =>
    optIsin tv.2 sel.vehicleTypes

/-- `filtered_drivers` (line 128): drivers referenced by the borough/date
filtered trips. -/
def filtered_drivers (drivers : List Driver) (trips : List Trip) (sel : Selection) : List Driver :=
  drivers.filter fun d =>
    (filtered_trips trips sel).any fun t => decide (t.driver_id = d.driver_id)

/-- `filtered_payments` (line 129): payments whose trip id appears in the
filtered trips. -/
def filtered_payments (payments : List Payment) (trips : List Trip) (sel : Selection) : List Payment :=
  payments.filter fun p =>
    (filtered_trips trips sel).any fun t => decide (t.trip_id = p.trip_id)

/-- Python division: raises `ZeroDivisionError` on a zero denominator
(both operands at lines 143 and 488 are Python `int` lengths). -/
def pydiv (a b : ℚ) : Except String ℚ :=
  if b = 0 then Except.error "ZeroDivisionError" else Except.ok (a / b)

/-- `completion_rate` (line 143, identically `completion_rate_val` at line
488): share of filtered trips with status `completed`, as a percentage.
The division is over the raw lengths, with no emptiness guard. -/
def completion_rate (ft : List Trip) : Except String ℚ :=
  (pydiv ((ft.filter fun t => decide (t.trip_status = "completed")).length : ℚ)
      (ft.length : ℚ)).map (· * 100)

/-- `total_revenue` (line 155): sum of `amount_charged` over filtered
payments whose `payment_status` is `successful`. -/
def total_revenue (fp : List Payment) : ℚ :=
  ((fp.filter fun p => decide (p.payment_status = "successful")).map
    Payment.amount_charged).sum

/-- Insert `x` into `l` in front of the first element `y` with
`le x y = true` (stable insertion step). -/
def insertLe {α : Type} (le : α → α → Bool) (x : α) : List α → List α
  | [] => [x]
  | y :: ys => if le x y then x :: y :: ys else y :: insertLe le x ys

/-- Stable insertion sort by the boolean relation `le`: elements the
relation cannot distinguish keep their input order. -/
def isortLe {α : Type} (le : α → α → Bool) : List α → List α
  | [] => []
  | x :: xs => insertLe le x (isortLe le xs)

/-- Ascending order on natural group keys (pandas `groupby` sorts keys). -/
def natLe (a b : Nat) : Bool := decide (a ≤ b)

/-- Ascending order on string group keys. -/
def strLe (a b : String) : Bool := decide (¬ b < a)

/-- The sorted distinct group keys `groupby` produces for a key column
(pandas sorts group keys ascending by default). -/
def groupKeysNat (col : List Nat) : List Nat := isortLe natLe col.dedup

/-- Sorted distinct string group keys. -/
def groupKeysStr (col : List String) : List String := isortLe strLe col.dedup

/-- `payment_revenue` (lines 345-346): group filtered payments by
`payment_method`, sum `amount_charged` per method (no payment-status
filter), then sort the table by the summed amount descending. -/
def payment_revenue (fp : List Payment) : List (String × ℚ) :=
  let table := (groupKeysStr (fp.map Payment.payment_method)).map fun k =>
    (k, ((fp.filter fun p => decide (p.payment_method = k)).map
          Payment.amount_charged).sum)
  isortLe (fun a b => decide (b.2 ≤ a.2)) table

/-- `hourly_demand` (line 422): `groupby(hour).size()` — one row per hour
value that occurs in the filtered trips, keys ascending, no reindexing. -/
def hourly_demand (ft : List Trip) : List (Nat × Nat) :=
  (groupKeysNat (ft.map Trip.hour)).map fun h =>
    (h, (ft.filter fun t => decide (t.hour = h)).length)

/-- The canonical weekday order of line 437. -/
def day_order : List String :=
  ["Monday", "Tuesday", "Wednesday", "Thursday", "Friday", "Saturday", "Sunday"]

/-- `groupby(day_of_week).size()`: per-day trip counts for the day names
present in the filtered set (keys sorted, as pandas does). -/
def daySize (ft : List Trip) : List (String × Nat) :=
  (groupKeysStr (ft.map Trip.day_of_week)).map fun d =>
    (d, (ft.filter fun t => decide (t.day_of_week = d)).length)

/-- `Series.reindex(order)`: one row per requested key, carrying the
looked-up value, or missing (`NaN`, here `none`) when the key is absent
from the series — `reindex` has no `fill_value` at line 438. -/
def reindexCount (series : List (String × Nat)) (order : List String) :
    List (String × Option Nat) :=
  order.map fun k => (k, (series.find? fun r => decide (r.1 = k)).map Prod.snd)

/-- `daily_demand` (line 438): day-of-week sizes reindexed to the fixed
Monday-to-Sunday order. -/
def daily_demand (ft : List Trip) : List (String × Option Nat) :=
  reindexCount (daySize ft) day_order

/-- The in-place column assignment of line 388:
`filtered_trips[month_year] = ...dt.to_period(M)` — every row of the
filtered trip frame gains a `month_year` value derived from its
timestamp. -/
def add_month_year (ft : List Trip) : List Trip :=
  ft.map fun t => { t with month_year := some (monthIndex t.trip_datetime) }

/-- `monthly_revenue` (lines 388-389).  The first component is the
filtered trips frame *after* the in-place `month_year` assignment (the
state the later tabs observe); the second is the derived table: completed
trips grouped by `month_year` with `fare_amount` summed. -/
def monthly_revenue (ft : List Trip) : List Trip × List (Nat × ℚ) :=
  let ft2 := add_month_year ft
  let comp := ft2.filter fun t => decide (t.trip_status = "completed")
  let table := (groupKeysNat (comp.map fun t => t.month_year.getD 0)).map fun k =>
    (k, ((comp.filter fun t => decide (t.month_year.getD 0 = k)).map
          Trip.fare_amount).sum)
  (ft2, table)

/-- Mean of a nullable numeric column: pandas `mean` skips missing values
and yields `NaN` (here `none`) when nothing remains. -/
def meanOpt (l : List (Option ℚ)) : Option ℚ :=
  let vs := l.filterMap id
  if vs.length = 0 then none else some (vs.sum / (vs.length : ℚ))

/-- Round to two decimals, modelling `Series.round(2)` (the tie-breaking
convention of float rounding is immaterial to every claim). -/
def round2 (q : ℚ) : ℚ := (⌊q * 100 + 1 / 2⌋ : ℚ) / 100

/-- One row of the `driver_metrics` frame (lines 284-302). -/
structure DriverMetric where
  driver_id : Nat
  trips_completed : Nat
  total_earnings : ℚ
  total_distance : ℚ
  total_time : ℚ
  avg_trip_rating : Option ℚ
  vehicle_type : Option String
  driver_rating : Option ℚ
  earnings_per_trip : ℚ
  earnings_per_hour : Option ℚ
deriving DecidableEq

/-- `driver_metrics` (lines 284-302): completed rows of the
vehicle-filtered trips grouped by `driver_id` (keys ascending, as
`groupby` sorts), aggregated, left-merged back to drivers for
`vehicle_type`/`driver_rating`, with the two per-rate columns derived.
A zero total duration makes `earnings_per_hour` non-finite in pandas,
modelled as `none`. -/
def driver_metrics (trips : List Trip) (drivers : List Driver) (sel : Selection) :
    List DriverMetric :=
  let ctv := (filtered_trips_with_drivers trips drivers sel).filter fun tv =>
    decide (tv.1.trip_status = "completed")
  (groupKeysNat (ctv.map fun tv => tv.1.driver_id)).map fun d =>
    let rows := ctv.filter fun tv => decide (tv.1.driver_id = d)
    let tc := rows.length
    let te := (rows.map fun tv => tv.1.fare_amount).sum
    let time := (rows.map fun tv => tv.1.duration_minutes).sum
    let drv := drivers.find? fun dr => decide (dr.driver_id = d)
    { driver_id := d
      trips_completed := tc
      total_earnings := te
      total_distance := (rows.map fun tv => tv.1.distance_miles).sum
      total_time := time
      avg_trip_rating := meanOpt (rows.map fun tv => tv.1.rider_rating)
      vehicle_type := drv.map Driver.vehicle_type
      driver_rating := drv.bind Driver.driver_rating
      earnings_per_trip := round2 (te / (tc : ℚ))
      earnings_per_hour := if time = 0 then none else some (round2 (te / (time / 60))) }

/-- Descending comparison on `total_earnings`, the sort key of
`nlargest(15, total_earnings)`. -/
def earnGe (a b : DriverMetric) : Bool := decide (b.total_earnings ≤ a.total_earnings)

/-- `top_earners` (line 308): `nlargest(15, total_earnings)` with the
default `keep=first`, i.e. a stable descending sort by earnings followed
by taking the first 15 rows. -/
def top_earners (trips : List Trip) (drivers : List Driver) (sel : Selection) :
    List DriverMetric :=
  (isortLe earnGe (driver_metrics trips drivers sel)).take 15

/-- `efficiency_data` (line 324): driver metrics restricted to drivers
with at least 5 completed trips. -/
def efficiency_data (trips : List Trip) (drivers : List Driver) (sel : Selection) :
    List DriverMetric :=
  (driver_metrics trips drivers sel).filter fun m => decide (5 ≤ m.trips_completed)

/-- A concrete completed trip taken on a Tuesday (date 1 of the Monday
epoch), used to evaluate the pipeline at sample inputs. -/
def tripTue : Trip :=
  mkTrip 1 2 (some "Manhattan") (some "Brooklyn") ⟨1, 8⟩ "completed" 20 3 15 1 (some 5)

/-- A concrete completed trip taken on a Wednesday. -/
def tripWed : Trip :=
  mkTrip 3 4 (some "Queens") (some "Bronx") ⟨2, 9⟩ "completed" 10 2 10 1 none

/-- A concrete failed payment with a nonzero charged amount. -/
def paymentFailed : Payment :=
  ⟨1, 1, ⟨0, 0⟩, "credit_card", "failed", 5⟩

/-- A concrete driver whose id matches no trip used in the examples. -/
def driverSedan : Driver := ⟨7, "Sedan", "Active", some 4, 10⟩

/-- A concrete selection accepting the boroughs and dates of `tripTue`
and requiring a `Sedan` vehicle. -/
def selSample : Selection :=
  ⟨["Manhattan"], ["Brooklyn"], ["Sedan"], 0, 10⟩

theorem insertLe_perm {α : Type} (le : α → α → Bool) (x : α) (l : List α) :
    List.Perm (insertLe le x l) (x :: l) := by
  induction l with
  | nil => simp [insertLe]
  | cons y ys ih =>
    by_cases h : le x y = true
    · simp [insertLe, h]
    · rw [insertLe, if_neg h]
      exact (ih.cons y).trans (List.Perm.swap x y ys)

theorem isortLe_perm {α : Type} (le : α → α → Bool) (l : List α) :
    List.Perm (isortLe le l) l := by
  induction l with
  | nil => simp [isortLe]
  | cons x xs ih =>
    exact (insertLe_perm le x (isortLe le xs)).trans (ih.cons x)

theorem mem_isortLe {α : Type} {le : α → α → Bool} {a : α} {l : List α} :
    a ∈ isortLe le l ↔ a ∈ l :=
  (isortLe_perm le l).mem_iff

theorem insertLe_pairwise {α : Type} {le : α → α → Bool}
    (htrans : ∀ a b c, le a b = true → le b c = true → le a c = true)
    (htot : ∀ a b, le a b = true ∨ le b a = true) (x : α) :
    ∀ l : List α, (l.Pairwise fun a b => le a b = true) →
      (insertLe le x l).Pairwise fun a b => le a b = true := by
  intro l
  induction l with
  | nil => intro _; simp [insertLe]
  | cons y ys ih =>
    intro h
    rw [List.pairwise_cons] at h
    by_cases hxy : le x y = true
    · rw [insertLe, if_pos hxy, List.pairwise_cons]
      refine ⟨?_, List.pairwise_cons.mpr h⟩
      intro z hz
      rcases List.mem_cons.mp hz with rfl | hz
      · exact hxy
      · exact htrans x y z hxy (h.1 z hz)
    · rw [insertLe, if_neg hxy, List.pairwise_cons]
      refine ⟨?_, ih h.2⟩
      intro z hz
      rcases List.mem_cons.mp ((insertLe_perm le x ys).mem_iff.mp hz) with rfl | hz
      · rcases htot z y with hh | hh
        · exact absurd hh hxy
        · exact hh
      · exact h.1 z hz

theorem isortLe_pairwise {α : Type} {le : α → α → Bool}
    (htrans : ∀ a b c, le a b = true → le b c = true → le a c = true)
    (htot : ∀ a b, le a b = true ∨ le b a = true) :
    ∀ l : List α, (isortLe le l).Pairwise fun a b => le a b = true := by
  intro l
  induction l with
  | nil => simp [isortLe]
  | cons x xs ih => exact insertLe_pairwise htrans htot x _ ih

theorem groupKeysNat_pairwise_lt (col : List Nat) :
    (groupKeysNat col).Pairwise (· < ·) := by
  have htrans : ∀ a b c : Nat, natLe a b = true → natLe b c = true → natLe a c = true := by
    intro a b c hab hbc
    exact decide_eq_true (Nat.le_trans (of_decide_eq_true hab) (of_decide_eq_true hbc))
  have htot : ∀ a b : Nat, natLe a b = true ∨ natLe b a = true := by
    intro a b
    rcases Nat.le_total a b with h | h
    · exact Or.inl (decide_eq_true h)
    · exact Or.inr (decide_eq_true h)
  have hle : (groupKeysNat col).Pairwise fun a b => natLe a b = true :=
    isortLe_pairwise htrans htot col.dedup
  have hnd : (groupKeysNat col).Nodup :=
    ((isortLe_perm natLe col.dedup).nodup_iff).mpr col.nodup_dedup
  exact (hle.and hnd).imp fun h =>
    Nat.lt_of_le_of_ne (of_decide_eq_true h.1) h.2

theorem mem_groupKeysNat {k : Nat} {col : List Nat} :
    k ∈ groupKeysNat col ↔ k ∈ col := by
  rw [groupKeysNat, mem_isortLe, List.mem_dedup]

theorem mem_groupKeysStr {k : String} {col : List String} :
    k ∈ groupKeysStr col ↔ k ∈ col := by
  rw [groupKeysStr, mem_isortLe, List.mem_dedup]

theorem nodup_groupKeysStr (col : List String) : (groupKeysStr col).Nodup :=
  ((isortLe_perm strLe col.dedup).nodup_iff).mpr col.nodup_dedup

/-- The deterministic ranking order claimed for the top-earners view:
strictly higher earnings first, equal earnings broken by the smaller
driver identifier. -/
def lexRank (a b : DriverMetric) : Prop :=
  b.total_earnings < a.total_earnings ∨
    (a.total_earnings = b.total_earnings ∧ a.driver_id < b.driver_id)

theorem insertLe_lexRank (x : DriverMetric) :
    ∀ l : List DriverMetric, l.Pairwise lexRank →
      (∀ y ∈ l, x.driver_id < y.driver_id) →
      (insertLe earnGe x l).Pairwise lexRank := by
  intro l
  induction l with
  | nil => intro _ _; simp [insertLe]
  | cons y ys ih =>
    intro hl hx
    rw [List.pairwise_cons] at hl
    by_cases hxy : earnGe x y = true
    · have hyx : y.total_earnings ≤ x.total_earnings := of_decide_eq_true hxy
      rw [insertLe, if_pos hxy, List.pairwise_cons]
      refine ⟨?_, List.pairwise_cons.mpr hl⟩
      intro z hz
      have hze : z.total_earnings ≤ x.total_earnings := by
        rcases List.mem_cons.mp hz with rfl | hz'
        · exact hyx
        · rcases hl.1 z hz' with h1 | h1
          · exact le_trans (le_of_lt h1) hyx
          · exact le_trans (le_of_eq h1.1.symm) hyx
      rcases lt_or_eq_of_le hze with hlt | heq
      · exact Or.inl hlt
      · exact Or.inr ⟨heq.symm, hx z hz⟩
    · have hyx : x.total_earnings < y.total_earnings := by
        have h1 : ¬ y.total_earnings ≤ x.total_earnings := by
          intro hcon
          exact hxy (decide_eq_true hcon)
        exact lt_of_not_le h1
      rw [insertLe, if_neg hxy, List.pairwise_cons]
      refine ⟨?_, ih hl.2 fun z hz => hx z (List.mem_cons_of_mem y hz)⟩
      intro z hz
      rcases List.mem_cons.mp ((insertLe_perm earnGe x ys).mem_iff.mp hz) with rfl | hz'
      · exact Or.inl hyx
      · exact hl.1 z hz'

theorem isortLe_lexRank :
    ∀ l : List DriverMetric, (l.Pairwise fun a b => a.driver_id < b.driver_id) →
      (isortLe earnGe l).Pairwise lexRank := by
  intro l
  induction l with
  | nil => intro _; simp [isortLe]
  | cons x xs ih =>
    intro h
    rw [List.pairwise_cons] at h
    exact insertLe_lexRank x _ (ih h.2)
      fun y hy => h.1 y ((isortLe_perm earnGe xs).mem_iff.mp hy)

theorem driver_metrics_id_sorted (trips : List Trip) (drivers : List Driver)
    (sel : Selection) :
    (driver_metrics trips drivers sel).Pairwise fun a b => a.driver_id < b.driver_id := by
  unfold driver_metrics
  exact List.Pairwise.map _ (fun a b h => h) (groupKeysNat_pairwise_lt _)

/-- C5: the top-earning-drivers ranking is deterministic: the rows of
`top_earners` are pairwise ordered by strictly descending total earnings
with ties broken by ascending driver identifier, exactly the first 15
rows of that ranking are taken (all of `driver_metrics` when it has
fewer than 15 rows), every row comes from `driver_metrics`, and every
row taken ranks strictly above every `driver_metrics` row left out. -/
theorem top_earners_deterministic (trips : List Trip) (drivers : List Driver)
    (sel : Selection) :
    (top_earners trips drivers sel).Pairwise lexRank ∧
    (top_earners trips drivers sel).length
        = min 15 (driver_metrics trips drivers sel).length ∧
    (∀ a ∈ top_earners trips drivers sel, a ∈ driver_metrics trips drivers sel) ∧
    (∀ a ∈ top_earners trips drivers sel,
      ∀ b ∈ driver_metrics trips drivers sel,
        b ∉ top_earners trips drivers sel → lexRank a b) := by
  have hsorted : (isortLe earnGe (driver_metrics trips drivers sel)).Pairwise lexRank :=
    isortLe_lexRank _ (driver_metrics_id_sorted trips drivers sel)
  have hperm := isortLe_perm earnGe (driver_metrics trips drivers sel)
  have htop : top_earners trips drivers sel
      = (isortLe earnGe (driver_metrics trips drivers sel)).take 15 := rfl
  refine ⟨?_, ?_, ?_, ?_⟩
  · rw [htop]
    exact hsorted.sublist (List.take_sublist 15 _)
  · rw [htop, List.length_take, hperm.length_eq]
  · intro a ha
    rw [htop] at ha
    exact hperm.mem_iff.mp ((List.take_sublist 15 _).mem ha)
  · intro a ha b hb hbn
    have hb' : b ∈ isortLe earnGe (driver_metrics trips drivers sel) :=
      hperm.mem_iff.mpr hb
    rw [← List.take_append_drop 15
        (isortLe earnGe (driver_metrics trips drivers sel))] at hb'
    rcases List.mem_append.mp hb' with hbt | hbd
    · exact absurd (htop ▸ hbt) hbn
    · have hpa : ((isortLe earnGe (driver_metrics trips drivers sel)).take 15
          ++ (isortLe earnGe (driver_metrics trips drivers sel)).drop 15).Pairwise
            lexRank := by
        rw [List.take_append_drop]
        exact hsorted
      exact (List.pairwise_append.mp hpa).2.2 a (htop ▸ ha) b hbd

/-- C8: the borough/date filter is idempotent — applying `filtered_trips`
twice with the same selection yields the same result as applying it
once. -/
theorem filtered_trips_idempotent (trips : List Trip) (sel : Selection) :
    filtered_trips (filtered_trips trips sel) sel = filtered_trips trips sel := by
  simp only [filtered_trips, List.filter_filter, Bool.and_self]

/-- C6: the loader is all-or-nothing — for every source, `load_data`
either returns all three record sets fully parsed, or returns no record
set at all; a mixed outcome (some record sets present, others absent)
never occurs. -/
theorem load_data_all_or_nothing (src : Source) :
    load_data src = (none, none, none) ∨
      ∃ d t p, load_data src = (some d, some t, some p) := by
  obtain ⟨od, ot, op⟩ := src
  rcases od with _ | d
  · left; rfl
  rcases ot with _ | rt
  · left; rfl
  rcases op with _ | rp
  · left; rfl
  rcases hmt : parseAllTrips rt with _ | t
  · left
    simp [load_data, Option.bind, hmt]
  rcases hmp : parseAllPayments rp with _ | p
  · left
    simp [load_data, Option.bind, hmt, hmp]
  · right
    exact ⟨d, t, p, by simp [load_data, Option.bind, hmt, hmp]⟩

/-- C4: a trip whose driver identifier resolves to no driver passes the
borough/date filter whenever it satisfies that filter's predicate, the
left join to drivers attaches a missing vehicle type to it, and the
vehicle-type filter drops it for any (in particular any non-empty)
vehicle-type selection. -/
theorem vehicle_filter_drops_unresolved (trips : List Trip) (drivers : List Driver)
    (sel : Selection) (t : Trip)
    (ht : t ∈ trips)
    (hunres : ∀ d ∈ drivers, d.driver_id ≠ t.driver_id)
    (_hvsel : sel.vehicleTypes ≠ [])
    (hpred : tripPred sel t = true) :
    t ∈ filtered_trips trips sel ∧
    (t, (none : Option String)) ∈ merge_vehicle (filtered_trips trips sel) drivers ∧
    ∀ v : Option String, (t, v) ∉ filtered_trips_with_drivers trips drivers sel := by
  have hft : t ∈ filtered_trips trips sel := List.mem_filter.mpr ⟨ht, hpred⟩
  have hfind : (drivers.find? fun d => decide (d.driver_id = t.driver_id)) = none := by
    apply List.find?_eq_none.mpr
    intro d hd
    simp only [decide_eq_true_eq]
    exact hunres d hd
  refine ⟨hft, ?_, ?_⟩
  · have : (t, (drivers.find? fun d =>
        decide (d.driver_id = t.driver_id)).map Driver.vehicle_type)
        ∈ merge_vehicle (filtered_trips trips sel) drivers :=
      List.mem_map_of_mem _ hft
    rwa [hfind] at this
  · intro v hv
    rcases List.mem_filter.mp hv with ⟨hmem, hkeep⟩
    rcases List.mem_map.mp hmem with ⟨t', ht', heq⟩
    have ht'' : t' = t := congrArg Prod.fst heq
    subst ht''
    have hv' : v = none := by
      have := congrArg Prod.snd heq
      simp only at this
      rw [← this, hfind]
      rfl
    subst hv'
    simp [optIsin] at hkeep

theorem vehicle_filter_drops_unresolved_witness :
    tripTue ∈ filtered_trips [tripTue] selSample ∧
    (tripTue, (none : Option String))
        ∈ merge_vehicle (filtered_trips [tripTue] selSample) [driverSedan] ∧
    ∀ v : Option String,
      (tripTue, v) ∉ filtered_trips_with_drivers [tripTue] [driverSedan] selSample :=
  vehicle_filter_drops_unresolved [tripTue] [driverSedan] selSample tripTue
    (by decide) (by decide) (by decide) (by decide)

theorem map_map_id {α β : Type} (f : β → α) (g : α → β)
    (h : ∀ k, g (f k) = k) (keys : List β) : (keys.map f).map g = keys := by
  rw [List.map_map]
  exact List.map_id'' h keys

theorem map_fst_map_pair {α : Type} (f : Nat → α) (keys : List Nat) :
    ((keys.map fun k => (k, f k)).map Prod.fst) = keys :=
  map_map_id _ _ (fun _ => rfl) keys

/-- C9: the hour-of-day table contains a row only for hours with at least
one trip in the filtered set (every row has a positive count and a
witnessing trip, and every occurring hour has a row); hours with zero
trips are omitted — unlike the day-of-week table, which is always
completed to exactly 7 rows. -/
theorem hourly_demand_omits_empty_hours (ft : List Trip) :
    (∀ row ∈ hourly_demand ft, 0 < row.2 ∧ ∃ t ∈ ft, t.hour = row.1) ∧
    (∀ h : Nat, (∃ t ∈ ft, t.hour = h) → h ∈ (hourly_demand ft).map Prod.fst) ∧
    (daily_demand ft).length = 7 := by
  refine ⟨?_, ?_, ?_⟩
  · intro row hrow
    rcases List.mem_map.mp hrow with ⟨h, hh, hrow'⟩
    have hmem : ∃ t ∈ ft, t.hour = h := by
      have := mem_groupKeysNat.mp hh
      rcases List.mem_map.mp this with ⟨t, ht, hth⟩
      exact ⟨t, ht, hth⟩
    subst hrow'
    constructor
    · rcases hmem with ⟨t, ht, hth⟩
      have : t ∈ ft.filter fun t => decide (t.hour = h) :=
        List.mem_filter.mpr ⟨ht, decide_eq_true hth⟩
      exact List.length_pos.mpr (List.ne_nil_of_mem this)
    · exact hmem
  · intro h hmem
    rw [hourly_demand, map_fst_map_pair]
    apply mem_groupKeysNat.mpr
    rcases hmem with ⟨t, ht, hth⟩
    exact List.mem_map.mpr ⟨t, ht, hth⟩
  · simp [daily_demand, reindexCount, day_order]

/-- C10: the per-driver metrics table contains exactly the drivers having
at least one completed trip in the vehicle-filtered trip set (so a driver
with no completed trip under the current selection is absent even when
present in `filtered_drivers`), and the top-earners and efficiency views
only contain rows of that table. -/
theorem driver_metrics_completed_only (trips : List Trip) (drivers : List Driver)
    (sel : Selection) :
    (∀ d : Nat,
      d ∈ (driver_metrics trips drivers sel).map DriverMetric.driver_id ↔
        ∃ tv ∈ filtered_trips_with_drivers trips drivers sel,
          tv.1.trip_status = "completed" ∧ tv.1.driver_id = d) ∧
    (∀ m ∈ top_earners trips drivers sel, m ∈ driver_metrics trips drivers sel) ∧
    (∀ m ∈ efficiency_data trips drivers sel, m ∈ driver_metrics trips drivers sel) := by
  refine ⟨?_, ?_, ?_⟩
  · intro d
    have hkeys : (driver_metrics trips drivers sel).map DriverMetric.driver_id =
        groupKeysNat (((filtered_trips_with_drivers trips drivers sel).filter fun tv =>
          decide (tv.1.trip_status = "completed")).map fun tv => tv.1.driver_id) := by
      rw [driver_metrics]
      exact map_map_id _ _ (fun _ => rfl) _
    rw [hkeys, mem_groupKeysNat]
    constructor
    · intro hd
      rcases List.mem_map.mp hd with ⟨tv, htv, hid⟩
      rcases List.mem_filter.mp htv with ⟨htv', hst⟩
      exact ⟨tv, htv', of_decide_eq_true hst, hid⟩
    · intro ⟨tv, htv, hst, hid⟩
      exact List.mem_map.mpr
        ⟨tv, List.mem_filter.mpr ⟨htv, decide_eq_true hst⟩, hid⟩
  · intro m hm
    exact ((isortLe_perm earnGe (driver_metrics trips drivers sel)).mem_iff).mp
      ((List.take_sublist 15 _).mem hm)
  · intro m hm
    exact List.mem_of_mem_filter hm

/-- C1 (counterexample): on an empty filtered trip set the completion-rate
KPI raises `ZeroDivisionError` (the division at line 143 is unguarded); it
does not return an ok/sentinel value as the claim states. -/
theorem completion_rate_empty_raises :
    completion_rate [] = Except.error "ZeroDivisionError" := rfl

/-- C1 (amended): for every non-empty filtered trip set the
completion-rate KPI evaluates without error to a value in [0, 100]; for
an empty filtered trip set it raises `ZeroDivisionError` rather than
returning an undefined sentinel. -/
theorem completion_rate_bounds (ft : List Trip) :
    (ft ≠ [] → ∃ q : ℚ, completion_rate ft = Except.ok q ∧ 0 ≤ q ∧ q ≤ 100) ∧
    (ft = [] → completion_rate ft = Except.error "ZeroDivisionError") := by
  constructor
  · intro hne
    have hn : (0 : ℚ) < (ft.length : ℚ) := by
      exact_mod_cast List.length_pos.mpr hne
    refine ⟨((ft.filter fun t => decide (t.trip_status = "completed")).length : ℚ)
        / (ft.length : ℚ) * 100, ?_, ?_, ?_⟩
    · rw [completion_rate, pydiv, if_neg (ne_of_gt hn)]
      rfl
    · positivity
    · have hle : ((ft.filter fun t =>
          decide (t.trip_status = "completed")).length : ℚ) ≤ (ft.length : ℚ) := by
        exact_mod_cast List.length_filter_le _ ft
      have hdiv : ((ft.filter fun t =>
          decide (t.trip_status = "completed")).length : ℚ) / (ft.length : ℚ) ≤ 1 :=
        (div_le_one hn).mpr hle
      calc ((ft.filter fun t => decide (t.trip_status = "completed")).length : ℚ)
            / (ft.length : ℚ) * 100 ≤ 1 * 100 := by
              exact mul_le_mul_of_nonneg_right hdiv (by norm_num)
        _ = 100 := by norm_num
  · intro he
    subst he
    rfl

theorem completion_rate_bounds_witness :
    (∃ q : ℚ, completion_rate [tripTue] = Except.ok q ∧ 0 ≤ q ∧ q ≤ 100) ∧
      completion_rate [] = Except.error "ZeroDivisionError" :=
  ⟨(completion_rate_bounds [tripTue]).1 (by decide),
   (completion_rate_bounds []).2 rfl⟩

theorem find_map_key {α : Type} (f : String → α) :
    ∀ (keys : List String) (k : String),
      ((keys.map fun d => (d, f d)).find? fun r => decide (r.1 = k)) =
        if k ∈ keys then some (k, f k) else none := by
  intro keys k
  induction keys with
  | nil => simp
  | cons a as ih =>
    by_cases hak : a = k
    · subst hak
      simp [List.find?_cons]
    · rw [List.map_cons, List.find?_cons]
      have : (decide ((a, f a).1 = k)) = false := by
        simp [hak]
      rw [this, ih]
      by_cases hk : k ∈ as
      · simp [hk, List.mem_cons]
      · have : k ∉ a :: as := by
          simp [List.mem_cons, hk]
          intro hcon
          exact hak hcon.symm
        simp [hk, this]

/-- C2 (counterexample): with a filtered set containing a single Tuesday
trip, the day-of-week table carries a missing (`NaN`) count for Monday,
not a zero-count row: `reindex` at line 438 fills absent days with `NaN`. -/
theorem daily_demand_missing_day_not_zero :
    ("Monday", some 0) ∉ daily_demand [tripTue] ∧
      ("Monday", (none : Option Nat)) ∈ daily_demand [tripTue] := by
  constructor
  · decide
  · decide

/-- C2 (amended): for every filtered trip set the day-of-week table has
exactly the 7 rows Monday through Sunday in that fixed order; a day with
trips carries its trip count, while a day with no trips carries a
missing (`NaN`) count rather than zero. -/
theorem daily_demand_rows (ft : List Trip) :
    daily_demand ft = day_order.map fun d =>
      (d, if (ft.filter fun t => decide (t.day_of_week = d)).length = 0 then none
          else some (ft.filter fun t => decide (t.day_of_week = d)).length) := by
  rw [daily_demand, reindexCount]
  apply List.map_congr_left
  intro d _
  rw [daySize, find_map_key]
  have hmem : d ∈ groupKeysStr (ft.map Trip.day_of_week) ↔
      ¬ (ft.filter fun t => decide (t.day_of_week = d)).length = 0 := by
    rw [mem_groupKeysStr]
    constructor
    · intro hd
      rcases List.mem_map.mp hd with ⟨t, ht, htd⟩
      have : t ∈ ft.filter fun t => decide (t.day_of_week = d) :=
        List.mem_filter.mpr ⟨ht, decide_eq_true htd⟩
      intro hlen
      rw [List.length_eq_zero] at hlen
      rw [hlen] at this
      exact List.not_mem_nil t this
    · intro hlen
      have hne : (ft.filter fun t => decide (t.day_of_week = d)) ≠ [] := by
        intro hcon
        exact hlen (by rw [hcon]; rfl)
      rcases List.exists_mem_of_ne_nil _ hne with ⟨t, ht⟩
      rcases List.mem_filter.mp ht with ⟨ht', htd⟩
      exact List.mem_map.mpr ⟨t, ht', of_decide_eq_true htd⟩
  by_cases hz : (ft.filter fun t => decide (t.day_of_week = d)).length = 0
  · rw [if_pos hz, if_neg (fun hc => (hmem.mp hc) hz)]
    rfl
  · rw [if_neg hz, if_pos (hmem.mpr hz)]
    rfl

theorem sum_filter_partition {α : Type} (f : α → ℚ) (p : α → Bool) :
    ∀ l : List α,
      ((l.filter p).map f).sum + ((l.filter fun x => !(p x)).map f).sum =
        (l.map f).sum := by
  intro l
  induction l with
  | nil => simp
  | cons x xs ih =>
    cases h : p x with
    | true =>
      simp only [List.filter_cons, h, Bool.not_true, Bool.false_eq_true, if_true,
        if_false, List.map_cons, List.sum_cons, reduceIte]
      rw [add_assoc, ih]
    | false =>
      simp only [List.filter_cons, h, Bool.not_false, Bool.false_eq_true, if_true,
        if_false, List.map_cons, List.sum_cons, reduceIte]
      rw [add_left_comm, ih]

theorem groupSum_conservation :
    ∀ (keys : List String) (l : List Payment), keys.Nodup →
      (∀ p ∈ l, p.payment_method ∈ keys) →
      (keys.map fun k =>
        ((l.filter fun p => decide (p.payment_method = k)).map
          Payment.amount_charged).sum).sum
        = (l.map Payment.amount_charged).sum := by
  intro keys
  induction keys with
  | nil =>
    intro l _ hcov
    cases l with
    | nil => simp
    | cons p ps => exact absurd (hcov p (List.mem_cons_self p ps)) (List.not_mem_nil _)
  | cons k ks ih =>
    intro l hnd hcov
    rw [List.map_cons, List.sum_cons]
    have hknotin : k ∉ ks := (List.nodup_cons.mp hnd).1
    have hrest : ∀ k' ∈ ks,
        ((l.filter fun p => !(decide (p.payment_method = k))).filter
          fun p => decide (p.payment_method = k')) =
          (l.filter fun p => decide (p.payment_method = k')) := by
      intro k' hk'
      rw [List.filter_filter]
      apply List.filter_congr
      intro p _
      by_cases h : p.payment_method = k'
      · have hkk : ¬ k' = k := fun hc => hknotin (hc ▸ hk')
        have hne : p.payment_method ≠ k := by
          rw [h]
          exact hkk
        simp [h, hne, hkk]
      · simp [h]
    have hmapeq : (ks.map fun k' =>
        ((l.filter fun p => decide (p.payment_method = k')).map
          Payment.amount_charged).sum) =
        ks.map fun k' =>
          (((l.filter fun p => !(decide (p.payment_method = k))).filter
            fun p => decide (p.payment_method = k')).map
              Payment.amount_charged).sum := by
      apply List.map_congr_left
      intro k' hk'
      rw [hrest k' hk']
    rw [hmapeq, ih (l.filter fun p => !(decide (p.payment_method = k)))
      (List.nodup_cons.mp hnd).2 ?_]
    · exact sum_filter_partition Payment.amount_charged (fun p => decide (p.payment_method = k)) l
    · intro p hp
      rcases List.mem_filter.mp hp with ⟨hpl, hpk⟩
      have : p.payment_method ≠ k := by
        intro hcon
        rw [hcon] at hpk
        simp at hpk
      rcases List.mem_cons.mp (hcov p hpl) with h | h
      · exact absurd h this
      · exact h

/-- C3 (counterexample): with a single failed payment of nonzero amount,
the per-payment-method revenue table (which sums `amount_charged` with no
`payment_status` filter, line 345) totals 5 while the total-revenue KPI
(successful payments only, line 155) is 0 — the two differ exactly, far
beyond float tolerance. -/
theorem payment_revenue_ne_total_revenue :
    ((payment_revenue [paymentFailed]).map Prod.snd).sum
      ≠ total_revenue [paymentFailed] := by
  have h1 : ((payment_revenue [paymentFailed]).map Prod.snd).sum = 5 := by
    simp [payment_revenue, paymentFailed, groupKeysStr, isortLe, insertLe,
      List.dedup_cons_of_not_mem, List.dedup_nil]
  have h2 : total_revenue [paymentFailed] = 0 := by
    simp [total_revenue, paymentFailed]
  rw [h1, h2]
  norm_num

/-- C3 (amended): the sum over all payment methods of the
per-payment-method revenue table equals the total `amount_charged` over
the whole filtered payment set, including unsuccessful payments; it
coincides with the total-revenue KPI only when non-successful payments
carry zero total amount. -/
theorem payment_revenue_conservation (fp : List Payment) :
    ((payment_revenue fp).map Prod.snd).sum = (fp.map Payment.amount_charged).sum := by
  rw [payment_revenue]
  have hperm := (isortLe_perm (fun a b : String × ℚ => decide (b.2 ≤ a.2))
    ((groupKeysStr (fp.map Payment.payment_method)).map fun k =>
      (k, ((fp.filter fun p => decide (p.payment_method = k)).map
        Payment.amount_charged).sum)))
  rw [(hperm.map Prod.snd).sum_eq, List.map_map]
  have : (Prod.snd ∘ fun k => (k,
      ((fp.filter fun p => decide (p.payment_method = k)).map
        Payment.amount_charged).sum)) = fun k =>
      ((fp.filter fun p => decide (p.payment_method = k)).map
        Payment.amount_charged).sum := rfl
  rw [this]
  apply groupSum_conservation
  · exact nodup_groupKeysStr _
  · intro p hp
    exact mem_groupKeysStr.mpr (List.mem_map_of_mem Payment.payment_method hp)

theorem hourly_demand_add_month_year (ft : List Trip) :
    hourly_demand (add_month_year ft) = hourly_demand ft := by
  rw [hourly_demand, hourly_demand, add_month_year]
  have h1 : (ft.map fun t =>
      { t with month_year := some (monthIndex t.trip_datetime) }).map Trip.hour
      = ft.map Trip.hour := by
    rw [List.map_map]
    rfl
  rw [h1]
  apply List.map_congr_left
  intro h _
  congr 1
  rw [List.filter_map, List.length_map]
  rfl

theorem daily_demand_add_month_year (ft : List Trip) :
    daily_demand (add_month_year ft) = daily_demand ft := by
  rw [daily_demand, daily_demand]
  congr 1
  rw [daySize, daySize, add_month_year]
  have h1 : (ft.map fun t =>
      { t with month_year := some (monthIndex t.trip_datetime) }).map Trip.day_of_week
      = ft.map Trip.day_of_week := by
    rw [List.map_map]
    rfl
  rw [h1]
  apply List.map_congr_left
  intro d _
  congr 1
  rw [List.filter_map, List.length_map]
  rfl

theorem completion_rate_add_month_year (ft : List Trip) :
    completion_rate (add_month_year ft) = completion_rate ft := by
  rw [completion_rate, completion_rate, add_month_year]
  rw [List.filter_map, List.length_map, List.length_map]
  rfl

/-- C7 (counterexample): the monthly-revenue step of the Metrics Engine
(line 388) mutates the Filter Engine's output in place — after it runs,
the filtered trip set differs from what the filter stage produced (each
row has gained a `month_year` value). -/
theorem monthly_revenue_mutates_filtered_trips :
    (monthly_revenue [tripTue]).1 ≠ [tripTue] := by decide

/-- C7 (amended): every pipeline stage except the monthly-revenue step
leaves its inputs intact, and the monthly-revenue step mutates the
filtered trip set only by assigning the `month_year` column: every other
field of every row is preserved, so the day-of-week, hour-of-day and
completion-rate metrics computed from the mutated set are unchanged. -/
theorem monthly_revenue_mutation_scope (ft : List Trip) :
    ((monthly_revenue ft).1.map fun t => { t with month_year := none })
        = ft.map (fun t => { t with month_year := none }) ∧
    hourly_demand (monthly_revenue ft).1 = hourly_demand ft ∧
    daily_demand (monthly_revenue ft).1 = daily_demand ft ∧
    completion_rate (monthly_revenue ft).1 = completion_rate ft := by
  have h1 : (monthly_revenue ft).1 = add_month_year ft := rfl
  refine ⟨?_, ?_, ?_, ?_⟩
  · rw [h1, add_month_year, List.map_map]
    rfl
  · rw [h1, hourly_demand_add_month_year]
  · rw [h1, daily_demand_add_month_year]
  · rw [h1, completion_rate_add_month_year]
